import Mathlib

/-!
Verification of the natural-language specification of the `voice-todo-app`
task subsystem against its source.  The development shallowly embeds the
relative date resolver (`agent_tools.parse_relative_date`), the task store
(`database.Database`), and the task CRUD tools (`agent_tools` and the
`agent.py` variant) as executable Lean functions, and proves or refutes the
frozen claims about them.

Conventions of the embedding:
* Python strings are `List Char`; `.lower()`, `.strip()`, substring tests and
  the few regular-expression searches used by the source are modelled by
  explicit scanners below.
* A Python `datetime` is a `PyDateTime`: the proleptic-Gregorian day ordinal
  (`date.toordinal()`) together with the time-of-day fields.  The source only
  ever replaces the full date part (`replace(year=, month=, day=)`), adds
  whole days (`timedelta(days=k)`), or zeroes the time, so this pair is an
  exact model of the operations used.
* The external `dateutil` parser is an oracle parameter `DParse`; repository
  logic is verified for every oracle.  A small concrete oracle
  (`dateutil_model`, modelled from the spec) is used for closed witnesses.
* A raised `ValueError` is an `Except.error`.
-/

namespace VTodo

/-- Decidable equality for `Except`, so closed facts about fallible
operations can be settled by `decide`. -/
instance {ε α : Type} [DecidableEq ε] [DecidableEq α] : DecidableEq (Except ε α) := fun a b =>
  match a, b with
  | .ok x, .ok y =>
      if h : x = y then .isTrue (by rw [h]) else .isFalse (fun hc => by cases hc; exact h rfl)
  | .error x, .error y =>
      if h : x = y then .isTrue (by rw [h]) else .isFalse (fun hc => by cases hc; exact h rfl)
  | .ok _, .error _ => .isFalse (fun hc => by cases hc)
  | .error _, .ok _ => .isFalse (fun hc => by cases hc)

/-- Python `datetime`: `day` is `date.toordinal()` (day 1 = 0001-01-01, a
Monday), the remaining fields are the time of day. -/
structure PyDateTime where
  day : Int
  hour : Int
  minute : Int
  second : Int
  microsecond : Int
deriving DecidableEq, Repr

/-- Microseconds in one day. -/
def usPerDay : Int := 86400000000

/-- Total microseconds since the epoch of day 0; datetime comparison and
subtraction in Python agree with comparison and subtraction of this value. -/
def PyDateTime.totalMicros (d : PyDateTime) : Int :=
  ((d.day * 24 + d.hour) * 60 + d.minute) * 60 * 1000000 + d.second * 1000000 + d.microsecond

/-- Model of `dt.replace(hour=0, minute=0, second=0, microsecond=0)`. -/
def PyDateTime.startOfDay (d : PyDateTime) : PyDateTime :=
  { d with hour := 0, minute := 0, second := 0, microsecond := 0 }

/-- Model of `dt + timedelta(days=k)` (also subtraction, by negative `k`). -/
def PyDateTime.addDays (k : Int) (d : PyDateTime) : PyDateTime :=
  { d with day := d.day + k }

/-- Model of `parsed.replace(year=a.year, month=a.month, day=a.day)`:
replacing the whole calendar date of `d` with the date of `a`. -/
def PyDateTime.withDateOf (d a : PyDateTime) : PyDateTime :=
  { d with day := a.day }

/-- Model of `dt.weekday()` (Monday = 0). -/
def PyDateTime.weekday (d : PyDateTime) : Int :=
  (d.day - 1).emod 7

/-- Model of `(a - b).days`: Python `timedelta.days` floor-divides the total
difference by one day. -/
def diffDays (a b : PyDateTime) : Int :=
  (a.totalMicros - b.totalMicros).fdiv usPerDay

/-! Python string helpers over `List Char`. -/

/-- Characters matched by `str.strip()` and the regex class `\s` (ASCII). -/
def isPySpace (c : Char) : Bool :=
  c == ' ' || c == '\t' || c == '\n' || c == '\r' || c.toNat == 11 || c.toNat == 12

/-- ASCII decimal digit, the regex class `\d` on the inputs in scope. -/
def isDigitChar (c : Char) : Bool :=
  48 ≤ c.toNat && c.toNat ≤ 57

/-- Model of `str.lower()` on one character (ASCII case mapping). -/
def pyLowerChar (c : Char) : Char :=
  if 65 ≤ c.toNat ∧ c.toNat ≤ 90 then Char.ofNat (c.toNat + 32) else c

/-- Model of `str.lower()`. -/
def pyLower (s : List Char) : List Char := s.map pyLowerChar

/-- Model of `str.strip()`. -/
def pyStrip (s : List Char) : List Char :=
  ((s.dropWhile isPySpace).reverse.dropWhile isPySpace).reverse

/-- Model of `date_string.lower().strip()`. -/
def pyLowerStrip (s : List Char) : List Char := pyStrip (pyLower s)

/-- Model of the Python substring test `needle in hay`. -/
def containsSub (hay needle : List Char) : Bool :=
  if needle.isPrefixOf hay then true
  else
    match hay with
    | [] => false
    | _ :: t => containsSub t needle

/-- Truthiness of an optional integer argument (`None` and `0` are falsy). -/
def intTruthy : Option Int → Bool
  | none => false
  | some v => v != 0

/-- Truthiness of an optional string argument (`None` and `""` are falsy). -/
def strTruthy : Option (List Char) → Bool
  | none => false
  | some s => !s.isEmpty

/-! The relative date resolver, `agent_tools.parse_relative_date`. -/

/-- The fixed complaint-phrase list (`non_date_phrases` in the source). -/
def nonDatePhrases : List (List Char) :=
  ["time is".toList, "date is".toList, "time was".toList, "date was".toList,
   "wrong time".toList, "wrong date".toList, "incorrect time".toList, "incorrect date".toList,
   "time wrong".toList, "date wrong".toList, "time incorrect".toList, "date incorrect".toList]

/-- `any(phrase in date_string_lower for phrase in non_date_phrases)`. -/
def isComplaint (lower : List Char) : Bool :=
  nonDatePhrases.any (fun p => containsSub lower p)

/-- Model of `re.search` for `\d{1,2}:\d{2}`: some position holds a digit,
a colon, and two digits (existence of a match is all the source uses). -/
def hasClockColon : List Char → Bool
  | a :: b :: c :: d :: t =>
      (isDigitChar a && b == ':' && isDigitChar c && isDigitChar d) || hasClockColon (b :: c :: d :: t)
  | _ => false

/-- Model of `re.search` for `\d{1,2}\s*(am|pm)`: a digit, then optional
whitespace, then `am` or `pm`. -/
def hasAmPm : List Char → Bool
  | [] => false
  | c :: t =>
      (isDigitChar c &&
        (match t.dropWhile isPySpace with
         | 'a' :: 'm' :: _ => true
         | 'p' :: 'm' :: _ => true
         | _ => false)) || hasAmPm t

/-- The `has_time_spec` flag computed by the source. -/
def hasTimeSpec (lower : List Char) : Bool :=
  containsSub lower " at ".toList ||
  hasClockColon lower ||
  hasAmPm lower ||
  (containsSub lower "hour".toList &&
    (containsSub lower "in".toList || containsSub lower "at".toList || containsSub lower "by".toList))

/-- Guard of the `today` branch:
`date_string_lower == "today" or date_string_lower.startswith("today ")`. -/
def todayGuard (lower : List Char) : Bool :=
  lower == "today".toList || "today ".toList.isPrefixOf lower

/-- Guard of the `tomorrow` branch. -/
def tomorrowGuard (lower : List Char) : Bool :=
  lower == "tomorrow".toList || "tomorrow ".toList.isPrefixOf lower

/-- Guard of the `yesterday` branch. -/
def yesterdayGuard (lower : List Char) : Bool :=
  lower == "yesterday".toList || "yesterday ".toList.isPrefixOf lower

/-- Guard of the `next week` branch: `startswith("next week")`. -/
def nextWeekGuard (lower : List Char) : Bool :=
  "next week".toList.isPrefixOf lower

/-- Value of a digit string, as Python `int()` computes it. -/
def digitsVal (ds : List Char) : Nat :=
  ds.foldl (fun a c => 10 * a + (c.toNat - 48)) 0

/-- Try to match the regex `in\s+(\d+)\s+days?` at the head of the list,
returning the captured number. -/
def matchInDays (s : List Char) : Option Nat :=
  match s with
  | 'i' :: 'n' :: rest =>
      let ws := rest.takeWhile isPySpace
      if ws.isEmpty then none
      else
        let r1 := rest.dropWhile isPySpace
        let ds := r1.takeWhile isDigitChar
        if ds.isEmpty then none
        else
          let r2 := r1.dropWhile isDigitChar
          let ws2 := r2.takeWhile isPySpace
          if ws2.isEmpty then none
          else
            let r3 := r2.dropWhile isPySpace
            if ['d', 'a', 'y'].isPrefixOf r3 then some (digitsVal ds) else none
  | _ => none

/-- Model of `re.search(r'in\s+(\d+)\s+days?', lower)`: leftmost match. -/
def findInDays : List Char → Option Nat
  | [] => none
  | c :: t =>
      match matchInDays (c :: t) with
      | some n => some n
      | none => findInDays t

/-- The external `dateutil.parser.parse(s, fuzzy, default)` oracle: the
repository logic is verified for an arbitrary oracle of this type. -/
def DParse : Type :=
  List Char → Bool → PyDateTime → Except Unit PyDateTime

/-- The start-of-day normalization applied on the general parse path when the
expression was a simple relative phrase without a time specification. -/
def normalizeSimple (lower : List Char) (hts : Bool) (parsed : PyDateTime) : PyDateTime :=
  if !hts && (containsSub lower "today".toList || containsSub lower "tomorrow".toList ||
      containsSub lower "yesterday".toList ||
      (containsSub lower "day".toList && containsSub lower "in ".toList)) then
    parsed.startOfDay
  else parsed

/-- Shared shape of the three shortcut branches when `has_time_spec` holds:
`date_parser.parse(date_string, fuzzy=True, default=anchor).replace(year=anchor.year,
month=anchor.month, day=anchor.day)`; a parser exception propagates. -/
def applyTimeAtop (dp : DParse) (s : List Char) (anchor : PyDateTime) : Except Unit PyDateTime :=
  match dp s true anchor with
  | .ok parsed => .ok (parsed.withDateOf anchor)
  | .error e => .error e

/-- Rejection reasons of the resolver (each a `ValueError` raise site in the
source: the empty-string check, the complaint check, and the two parse
failure sites of the general fallback; a `dateutil` exception escaping a
shortcut branch is also a parse failure). -/
inductive DateError where
  | emptyString
  | notADateStatement
  | unparseable
deriving DecidableEq, Repr

/-- Shallow embedding of `agent_tools.parse_relative_date`.  The parameter
`now` is the value the source reads internally via `datetime.now()` at the
top of the function; it is not an argument of the Python function. -/
def parse_relative_date (dp : DParse) (date_string : List Char) (now : PyDateTime) :
    Except DateError PyDateTime :=
  if date_string.isEmpty then .error .emptyString
  else
    let lower := pyLowerStrip date_string
    if isComplaint lower then .error .notADateStatement
    else
      let hts := hasTimeSpec lower
      if todayGuard lower then
        if hts then
          match applyTimeAtop dp date_string now with
          | .ok d => .ok d
          | .error _ => .error .unparseable
        else .ok now.startOfDay
      else if tomorrowGuard lower then
        let tomorrow := now.addDays 1
        if hts then
          match applyTimeAtop dp date_string tomorrow with
          | .ok d => .ok d
          | .error _ => .error .unparseable
        else .ok tomorrow.startOfDay
      else if yesterdayGuard lower then
        let yesterday := now.addDays (-1)
        if hts then
          match applyTimeAtop dp date_string yesterday with
          | .ok d => .ok d
          | .error _ => .error .unparseable
        else .ok yesterday.startOfDay
      else if nextWeekGuard lower then
        let daysAhead := 7 - now.weekday
        let daysAhead := if daysAhead = 0 then 7 else daysAhead
        .ok ((now.addDays daysAhead).startOfDay)
      else
        match findInDays lower with
        | some n => .ok ((now.addDays (Int.ofNat n)).startOfDay)
        | none =>
            match dp date_string false now with
            | .ok parsed => .ok (normalizeSimple lower hts parsed)
            | .error _ =>
                match dp date_string true now with
                | .ok parsed =>
                    if 36500 < (diffDays parsed now).natAbs then .error .unparseable
                    else .ok (normalizeSimple lower hts parsed)
                | .error _ => .error .unparseable

/-- Modelled from the spec: the external `dateutil` parser, in the shape the
resolver uses it.  Strict mode rejects free text; fuzzy mode scans for a
clock time written as digits followed by `am`/`pm` and applies that
time-of-day atop the date of the `default` argument, as the spec describes
for the shortcut branches. -/
def findAmPmHour : List Char → Option Int
  | [] => none
  | c :: t =>
      if isDigitChar c then
        match t.dropWhile isPySpace with
        | 'a' :: 'm' :: _ => some ((c.toNat - 48 : Nat) : Int)
        | 'p' :: 'm' :: _ => some (((c.toNat - 48 : Nat) : Int) + 12)
        | _ => findAmPmHour t
      else findAmPmHour t

/-- Modelled from the spec: concrete `dateutil` oracle used only to
instantiate closed witnesses; see `findAmPmHour`. -/
def dateutil_model : DParse := fun s fuzzy dflt =>
  if fuzzy then
    match findAmPmHour s with
    | some h => .ok { dflt with hour := h, minute := 0, second := 0, microsecond := 0 }
    | none => .error ()
  else .error ()

/-! The task data model (`models.py`). -/

/-- `models.Priority`. -/
inductive Priority where
  | low
  | medium
  | high
deriving DecidableEq, Repr

/-- `models.Category`. -/
inductive Category where
  | work
  | personal
  | administrative
  | shopping
deriving DecidableEq, Repr

/-- The `.value` string of a `Priority` member. -/
def priorityValue : Priority → List Char
  | .low => "low".toList
  | .medium => "medium".toList
  | .high => "high".toList

/-- The `.value` string of a `Category` member. -/
def categoryValue : Category → List Char
  | .work => "work".toList
  | .personal => "personal".toList
  | .administrative => "administrative".toList
  | .shopping => "shopping".toList

/-- `models.Task` as reconstructed from store metadata. -/
structure Task where
  id : Int
  title : List Char
  scheduled_time : Option PyDateTime
  priority : Priority
  category : Option Category
  created_at : PyDateTime
deriving DecidableEq, Repr

/-- `models.TaskCreate`. -/
structure TaskCreate where
  title : List Char
  scheduled_time : Option PyDateTime
  priority : Priority
  category : Option Category
deriving DecidableEq, Repr

/-- `models.TaskUpdate`: every field optional, `None` meaning unchanged. -/
structure TaskUpdate where
  title : Option (List Char)
  scheduled_time : Option PyDateTime
  priority : Option Priority
  category : Option Category
deriving DecidableEq, Repr

/-! The task store (`database.py`).  A ChromaDB record is kept as its
metadata dict; documents and embeddings only influence the semantic ranking,
which is an oracle parameter (`SemQuery`).  ISO round trips
(`isoformat`/`fromisoformat`, `str`/`int` on ids) are exact, so the
corresponding fields are stored directly. -/

/-- One stored record (the metadata written by `_task_to_metadata` or
`update_task`): absent optional keys are `none`. -/
structure StoredTask where
  id : Int
  title : List Char
  priority : List Char
  category : Option (List Char)
  scheduled_time : Option PyDateTime
  created_at : PyDateTime
  session_id : Option (List Char)
deriving DecidableEq, Repr

/-- `Priority(value)`: raises (here `none`) on an unknown value. -/
def parsePriority (s : List Char) : Option Priority :=
  if s == "low".toList then some .low
  else if s == "medium".toList then some .medium
  else if s == "high".toList then some .high
  else none

/-- `Database._parse_category`: `None` for a falsy or unrecognized value. -/
def parseCategory : Option (List Char) → Option Category
  | none => none
  | some s =>
      if s.isEmpty then none
      else
        let sl := pyLower s
        if sl == "work".toList then some .work
        else if sl == "personal".toList then some .personal
        else if sl == "administrative".toList then some .administrative
        else if sl == "shopping".toList then some .shopping
        else none

/-- `Database._metadata_to_task`; `none` models the `ValueError` a bad
priority value would raise (caught by the calling method). -/
def metadataToTask (r : StoredTask) : Option Task :=
  match parsePriority r.priority with
  | none => none
  | some p =>
      some { id := r.id, title := r.title, scheduled_time := r.scheduled_time,
             priority := p, category := parseCategory r.category, created_at := r.created_at }

/-- The session-ownership rejection test shared by `get_task`,
`get_all_tasks` and `search_tasks`:
`session_id and metadata.get("session_id") and metadata.get("session_id") != session_id`. -/
def sessionRejected (sess : Option (List Char)) (r : StoredTask) : Bool :=
  strTruthy sess && strTruthy r.session_id && !(r.session_id == sess)

/-- `Database.get_task`: fetch by id, then the ownership check, then
metadata conversion (an exception anywhere yields `None`). -/
def get_task (st : List StoredTask) (task_id : Int) (sess : Option (List Char)) : Option Task :=
  match st.find? (fun r => r.id == task_id) with
  | none => none
  | some r => if sessionRejected sess r then none else metadataToTask r

/-- Stable insertion of a task into a list sorted by `created_at`
descending; equal keys keep their original order, as Python `list.sort`
(stable) with `reverse=True` does. -/
def insertByCreatedDesc (t : Task) : List Task → List Task
  | [] => [t]
  | u :: us =>
      if u.created_at.totalMicros < t.created_at.totalMicros then t :: u :: us
      else u :: insertByCreatedDesc t us

/-- `tasks.sort(key=lambda t: t.created_at, reverse=True)`. -/
def sortByCreatedDesc : List Task → List Task
  | [] => []
  | t :: ts => insertByCreatedDesc t (sortByCreatedDesc ts)

/-- Convert a record list, aborting on the first failure (an exception in
the build loop makes the enclosing method return `[]`). -/
def tasksOfRecs : List StoredTask → Option (List Task)
  | [] => some []
  | r :: rs =>
      match metadataToTask r with
      | none => none
      | some t =>
          match tasksOfRecs rs with
          | none => none
          | some ts => some (t :: ts)

/-- The ChromaDB `where` clause built by `get_all_tasks`: a record matches
when each requested metadata key is present with the given value. -/
def whereMatch (sess category : Option (List Char)) (r : StoredTask) : Bool :=
  (!strTruthy sess || r.session_id == sess) && (!strTruthy category || r.category == category)

/-- `Database.get_all_tasks`: `where`-filtered fetch, the per-record session
re-check, conversion, and the sort by `created_at` descending. -/
def get_all_tasks (st : List StoredTask) (category : Option (List Char))
    (sess : Option (List Char)) : List Task :=
  let recs := st.filter (whereMatch sess category)
  let recs := recs.filter (fun r => !sessionRejected sess r)
  match tasksOfRecs recs with
  | none => []
  | some ts => sortByCreatedDesc ts

/-- The semantic-search oracle: the ranked record list ChromaDB
`collection.query` returns for a store and a query string (the embedding
service and cosine ranking are external to this core). -/
def SemQuery : Type :=
  List StoredTask → List Char → List StoredTask

/-- `Database.search_tasks`: empty queries return `[]`; otherwise the ranked
candidates are session-filtered, converted, and sorted by `created_at`
descending. -/
def search_tasks (sq : SemQuery) (st : List StoredTask) (query : List Char)
    (sess : Option (List Char)) : List Task :=
  if (pyStrip query).isEmpty then []
  else
    let q := pyStrip query
    let cands := sq st q
    let cands := if strTruthy sess then cands.filter (fun r => r.session_id == sess) else cands
    let cands := cands.filter (fun r => !sessionRejected sess r)
    match tasksOfRecs cands with
    | none => []
    | some ts => sortByCreatedDesc ts

/-- `Database.delete_task`: with a truthy session the ownership check runs
first; deletion removes every record with the id. -/
def db_delete_task (st : List StoredTask) (task_id : Int) (sess : Option (List Char)) :
    List StoredTask × Bool :=
  if strTruthy sess then
    match get_task st task_id sess with
    | none => (st, false)
    | some _ => (st.filter (fun r => !(r.id == task_id)), true)
  else (st.filter (fun r => !(r.id == task_id)), true)

/-- `Database.update_task`: read the existing task, merge the update over it
field by field, preserve `created_at` and the stored session id, then delete
and re-add the record and re-read it. -/
def db_update_task (st : List StoredTask) (task_id : Int) (upd : TaskUpdate)
    (sess : Option (List Char)) : List StoredTask × Option Task :=
  match get_task st task_id sess with
  | none => (st, none)
  | some existing =>
      let updatedTitle := upd.title.getD existing.title
      let updatedCategory : Option Category :=
        match upd.category with
        | some c => some c
        | none => existing.category
      let updatedPriority := upd.priority.getD existing.priority
      let updatedScheduled : Option PyDateTime :=
        match upd.scheduled_time with
        | some s => some s
        | none => existing.scheduled_time
      let preservedSession : Option (List Char) :=
        match st.find? (fun r => r.id == task_id) with
        | some r => if strTruthy r.session_id then r.session_id else none
        | none => none
      let newRec : StoredTask :=
        { id := task_id, title := updatedTitle, priority := priorityValue updatedPriority,
          category := updatedCategory.map categoryValue, scheduled_time := updatedScheduled,
          created_at := existing.created_at, session_id := preservedSession }
      let st' := st.filter (fun r => !(r.id == task_id)) ++ [newRec]
      (st', get_task st' task_id sess)

/-- The database object: its records plus the `_next_id` counter. -/
structure DB where
  recs : List StoredTask
  next_id : Int
deriving DecidableEq, Repr

/-- `Database.create_task`: allocate the next id, write the metadata record
(`created_now` is the `datetime.now()` read inside the method), and re-read
the task. -/
def db_create_task (db : DB) (task : TaskCreate) (sess : Option (List Char))
    (created_now : PyDateTime) : DB × Option Task :=
  let task_id := db.next_id
  let rec0 : StoredTask :=
    { id := task_id, title := task.title, priority := priorityValue task.priority,
      category := task.category.map categoryValue, scheduled_time := task.scheduled_time,
      created_at := created_now, session_id := if strTruthy sess then sess else none }
  let db' : DB := { recs := db.recs ++ [rec0], next_id := db.next_id + 1 }
  (db', get_task db'.recs task_id sess)

/-! The agent tools (`agent_tools.py` inside `create_agent_tools`, and the
older `agent.py` variant).  String results are modelled as outcome tags; the
arguments keep Python truthiness (`0` and `""` count as absent). -/

/-- Result of the candidate-id resolution shared by `update_task` and
`delete_task` (lines before the store existence check). -/
inductive FindRes where
  | found (id : Int)
  | titleNotFound (q : List Char)
  | needRef
deriving DecidableEq, Repr

/-- The candidate-id resolution of `agent_tools.update_task`: a falsy
`task_id` plus a truthy `task_title` triggers the title search whose first
hit becomes the id; a still-falsy id asks for clarification. -/
def update_find_task_id (sq : SemQuery) (st : List StoredTask) (sess : Option (List Char))
    (task_id : Option Int) (task_title : Option (List Char)) : FindRes :=
  if !intTruthy task_id && strTruthy task_title then
    match search_tasks sq st (task_title.getD []) sess with
    | [] => .titleNotFound (task_title.getD [])
    | t :: _ => if intTruthy (some t.id) then .found t.id else .needRef
  else if intTruthy task_id then .found (task_id.getD 0)
  else .needRef

/-- Outcomes of `agent_tools.update_task`. -/
inductive UpdateOutcome where
  | updated (id : Int) (title : List Char)
  | titleNotFound (q : List Char)
  | needRef
  | idNotFound (id : Int)
  | emptyNewTitle
  | invalidPriority (p : List Char)
  | badSchedule (s : List Char)
  | invalidCategory (c : List Char)
  | noFields
deriving DecidableEq, Repr

/-- The priority map of the tools:
`{"low": LOW, "medium": MEDIUM, "high": HIGH}.get(p.lower())`. -/
def priorityLookup (p : List Char) : Option Priority :=
  let pl := pyLower p
  if pl == "low".toList then some .low
  else if pl == "medium".toList then some .medium
  else if pl == "high".toList then some .high
  else none

/-- The category map of the tools, with the `admin` and `shop` shorthands,
applied to `category.strip().lower()`. -/
def categoryLookup (c : List Char) : Option Category :=
  let cl := pyLower (pyStrip c)
  if cl == "work".toList then some .work
  else if cl == "personal".toList then some .personal
  else if cl == "administrative".toList then some .administrative
  else if cl == "admin".toList then some .administrative
  else if cl == "shopping".toList then some .shopping
  else if cl == "shop".toList then some .shopping
  else none

/-- `agent_tools.update_task`: resolve the reference, verify existence via
the store, validate and collect the update fields, then apply
`Database.update_task`.  `dp` and `now` serve `parse_relative_date`. -/
def tool_update_task (sq : SemQuery) (dp : DParse) (st : List StoredTask)
    (sess : Option (List Char)) (task_id : Option Int) (task_title : Option (List Char))
    (new_title : Option (List Char)) (priority : Option (List Char))
    (scheduled_time : Option (List Char)) (category : Option (List Char))
    (now : PyDateTime) : List StoredTask × UpdateOutcome :=
  match update_find_task_id sq st sess task_id task_title with
  | .titleNotFound q => (st, .titleNotFound q)
  | .needRef => (st, .needRef)
  | .found tid =>
      match get_task st tid sess with
      | none => (st, .idNotFound tid)
      | some _ =>
          let upd0 : TaskUpdate := { title := none, scheduled_time := none,
                                     priority := none, category := none }
          match
            (if strTruthy new_title then
              let nt := new_title.getD []
              if (pyStrip nt).isEmpty then .error UpdateOutcome.emptyNewTitle
              else .ok { upd0 with title := some (pyStrip nt) }
            else .ok upd0 :
              Except UpdateOutcome TaskUpdate).bind
            (fun u =>
              if strTruthy priority then
                match priorityLookup (priority.getD []) with
                | none => .error (UpdateOutcome.invalidPriority (priority.getD []))
                | some pe => .ok { u with priority := some pe }
              else .ok u) |>.bind
            (fun u =>
              if strTruthy scheduled_time then
                match parse_relative_date dp (scheduled_time.getD []) now with
                | .error _ => .error (UpdateOutcome.badSchedule (scheduled_time.getD []))
                | .ok d => .ok { u with scheduled_time := some d }
              else .ok u) |>.bind
            (fun u =>
              if strTruthy category then
                match categoryLookup (category.getD []) with
                | none => .error (UpdateOutcome.invalidCategory (category.getD []))
                | some ce => .ok { u with category := some ce }
              else .ok u)
          with
          | .error out => (st, out)
          | .ok u =>
              if u.title = none ∧ u.priority = none ∧ u.scheduled_time = none ∧
                  u.category = none then
                (st, .noFields)
              else
                match db_update_task st tid u sess with
                | (st', some updated) => (st', .updated tid updated.title)
                | (st', none) => (st', .idNotFound tid)

/-- Outcomes of the two `delete_task` variants. -/
inductive DeleteOutcome where
  | deleted (id : Int) (title : List Char)
  | numNotFound (n : Int)
  | titleNotFound (q : List Char)
  | needRef
  | idNotFound (id : Int)
deriving DecidableEq, Repr

/-- `agent_tools.delete_task`: a truthy `task_number` is used directly as
the task id; then the title search; then the existence check and deletion. -/
def tool_delete_task_tools (sq : SemQuery) (st : List StoredTask) (sess : Option (List Char))
    (task_id : Option Int) (task_title : Option (List Char)) (task_number : Option Int) :
    List StoredTask × DeleteOutcome :=
  let task_id := if intTruthy task_number && !intTruthy task_id then task_number else task_id
  match
    (if !intTruthy task_id && strTruthy task_title then
      match search_tasks sq st (task_title.getD []) sess with
      | [] => FindRes.titleNotFound (task_title.getD [])
      | t :: _ => if intTruthy (some t.id) then .found t.id else .needRef
    else if intTruthy task_id then .found (task_id.getD 0)
    else .needRef)
  with
  | .titleNotFound q => (st, .titleNotFound q)
  | .needRef => (st, .needRef)
  | .found tid =>
      match get_task st tid sess with
      | none => (st, .idNotFound tid)
      | some t => ((db_delete_task st tid sess).1, .deleted tid t.title)

/-- `agent.delete_task` (the `agent.py` variant): a truthy `task_number` is
a 1-based position into the full task list (creation order descending); out
of range is an error.  The variant runs without a session. -/
def tool_delete_task_agent (sq : SemQuery) (st : List StoredTask)
    (task_id : Option Int) (task_title : Option (List Char)) (task_number : Option Int) :
    List StoredTask × DeleteOutcome :=
  match
    (if intTruthy task_number then
      let tasks := get_all_tasks st none none
      let n := task_number.getD 0
      if 1 ≤ n ∧ n ≤ (tasks.length : Int) then
        match tasks[(n - 1).toNat]? with
        | some t => Sum.inl (some t.id)
        | none => Sum.inr (DeleteOutcome.numNotFound n)
      else Sum.inr (DeleteOutcome.numNotFound n)
    else Sum.inl task_id : Sum (Option Int) DeleteOutcome)
  with
  | .inr out => (st, out)
  | .inl task_id =>
      match
        (if !intTruthy task_id && strTruthy task_title then
          match search_tasks sq st (task_title.getD []) none with
          | [] => FindRes.titleNotFound (task_title.getD [])
          | t :: _ => if intTruthy (some t.id) then .found t.id else .needRef
        else if intTruthy task_id then .found (task_id.getD 0)
        else .needRef)
      with
      | .titleNotFound q => (st, .titleNotFound q)
      | .needRef => (st, .needRef)
      | .found tid =>
          match get_task st tid none with
          | none => (st, .idNotFound tid)
          | some t => ((db_delete_task st tid none).1, .deleted tid t.title)

/-- Outcomes of `agent_tools.create_task`. -/
inductive CreateOutcome where
  | created (id : Int) (title : List Char)
  | emptyTitle
  | invalidCategory (c : List Char)
  | badSchedule (s : List Char)
  | createError
deriving DecidableEq, Repr

/-- `agent_tools.create_task`: title validation, the priority map with the
`MEDIUM` default, category validation, schedule parsing, then
`Database.create_task`.  `now` is the clock read inside
`parse_relative_date`, `created_now` the one inside `Database.create_task`. -/
def tool_create_task (dp : DParse) (db : DB) (sess : Option (List Char))
    (title : List Char) (priority : List Char) (scheduled_time : Option (List Char))
    (category : Option (List Char)) (now created_now : PyDateTime) : DB × CreateOutcome :=
  if (pyStrip title).isEmpty then (db, .emptyTitle)
  else
    let title := pyStrip title
    let priorityEnum := (priorityLookup priority).getD .medium
    match
      (if strTruthy category then
        match categoryLookup (category.getD []) with
        | none => .error (CreateOutcome.invalidCategory (category.getD []))
        | some ce => .ok (some ce)
      else .ok none : Except CreateOutcome (Option Category))
    with
    | .error out => (db, out)
    | .ok categoryEnum =>
        match
          (if strTruthy scheduled_time then
            match parse_relative_date dp (scheduled_time.getD []) now with
            | .error _ => .error (CreateOutcome.badSchedule (scheduled_time.getD []))
            | .ok d => .ok (some d)
          else .ok none : Except CreateOutcome (Option PyDateTime))
        with
        | .error out => (db, out)
        | .ok scheduledDt =>
            let task : TaskCreate := { title := title, scheduled_time := scheduledDt,
                                       priority := priorityEnum, category := categoryEnum }
            match db_create_task db task sess created_now with
            | (db', some created) => (db', .created created.id created.title)
            | (db', none) => (db', .createError)

/-! Fixtures for closed witnesses and counterexamples. -/

/-- A stored task with id 1, created earlier. -/
def sampleRec1 : StoredTask :=
  ⟨1, "alpha".toList, "medium".toList, none, none, ⟨10, 0, 0, 0, 0⟩, none⟩

/-- A stored task with id 2, created later. -/
def sampleRec2 : StoredTask :=
  ⟨2, "beta".toList, "medium".toList, none, none, ⟨11, 0, 0, 0, 0⟩, none⟩

/-- A two-task store. -/
def sampleStore : List StoredTask := [sampleRec1, sampleRec2]

/-- A semantic-search oracle that finds nothing. -/
def sqNone : SemQuery := fun _ _ => []

/-- A semantic-search oracle that returns the whole collection. -/
def sqAll : SemQuery := fun st _ => st

/-- A `dateutil` oracle whose strict mode fails and whose fuzzy mode
misreads every input as a date far in the future. -/
def dpFar : DParse := fun _ fuzzy d => if fuzzy then .ok (d.addDays 999999) else .error ()

/-- The complaint phrases named by claim C6 (all appear in the fixed list of
the source). -/
def claimComplaintPhrases : List (List Char) :=
  ["time is".toList, "date is".toList, "wrong time".toList, "wrong date".toList,
   "time incorrect".toList, "date incorrect".toList]

/-! Shared helper lemmas. -/

/-- A substring test that succeeds only finds characters of the haystack. -/
theorem containsSub_subset {hay needle : List Char} (h : containsSub hay needle = true) :
    ∀ c ∈ needle, c ∈ hay := by
  induction hay with
  | nil =>
      by_cases hp : needle.isPrefixOf ([] : List Char) = true
      · have hn : needle = [] := by
          cases needle with
          | nil => rfl
          | cons a t => simp [List.isPrefixOf] at hp
        subst hn
        intro c hc
        cases hc
      · rw [containsSub, if_neg] at h
        · cases h
        · simp [hp]
  | cons a t ih =>
      by_cases hp : needle.isPrefixOf (a :: t) = true
      · have hpre : needle <+: a :: t := List.isPrefixOf_iff_prefix.mp hp
        exact fun c hc => hpre.subset hc
      · have h' : containsSub t needle = true := by
          rw [containsSub, if_neg] at h
          · exact h
          · simp [hp]
        exact fun c hc => List.mem_cons_of_mem _ (ih h' c hc)

/-- Lower-casing fixes decimal digits. -/
theorem pyLowerChar_digit {c : Char} (h : isDigitChar c = true) : pyLowerChar c = c := by
  simp only [isDigitChar, Bool.and_eq_true, decide_eq_true_eq] at h
  unfold pyLowerChar
  rw [if_neg]
  omega

/-- Decimal digits are not whitespace. -/
theorem isPySpace_digit {c : Char} (h : isDigitChar c = true) : isPySpace c = false := by
  simp only [isDigitChar, Bool.and_eq_true, decide_eq_true_eq] at h
  have h32 : c.toNat ≠ 32 := by omega
  have h9 : c.toNat ≠ 9 := by omega
  have h10 : c.toNat ≠ 10 := by omega
  have h13 : c.toNat ≠ 13 := by omega
  have h11 : c.toNat ≠ 11 := by omega
  have h12 : c.toNat ≠ 12 := by omega
  simp only [isPySpace, Bool.or_eq_false_iff]
  refine ⟨⟨⟨⟨⟨?_, ?_⟩, ?_⟩, ?_⟩, ?_⟩, ?_⟩ <;>
    simp only [beq_eq_false_iff_ne, ne_eq, decide_eq_false_iff_not] <;>
    first
      | (intro hc; subst hc; simp_all)
      | simp_all

/-- The letter `t` is not a digit character. -/
theorem t_not_digit {ds : List Char} (hds : ∀ c ∈ ds, isDigitChar c = true) :
    't' ∉ ds := by
  intro hmem
  have := hds 't' hmem
  simp [isDigitChar] at this

/-! Claim theorems. -/

/-- Claim C1, counterexample: `parse_relative_date` resolves
`"in 40000 days"` through the relative offset pattern to a date 40000 days
(far more than 100 years) past the anchor and returns it, so a successful
resolution can land outside the 100-year bound without being rejected. -/
theorem c1_counterexample :
    parse_relative_date dateutil_model "in 40000 days".toList ⟨0, 0, 0, 0, 0⟩ =
      .ok ⟨40000, 0, 0, 0, 0⟩ ∧
    36500 < (diffDays ⟨40000, 0, 0, 0, 0⟩ ⟨0, 0, 0, 0, 0⟩).natAbs := by
  decide

/-- Claim C1 (amended): the 100-year sanity bound is enforced only on the
lenient-parse fallback path: whenever the expression reaches that path
(no complaint, no shortcut, no offset pattern, strict parse fails) and the
fuzzy parse lands more than 36500 days from the anchor, resolution is
rejected as unparseable rather than returned or clamped. -/
theorem c1_fuzzy_bound_rejects (dp : DParse) (e : List Char) (now parsed : PyDateTime)
    (hne : e.isEmpty = false)
    (hcomp : isComplaint (pyLowerStrip e) = false)
    (h1 : todayGuard (pyLowerStrip e) = false)
    (h2 : tomorrowGuard (pyLowerStrip e) = false)
    (h3 : yesterdayGuard (pyLowerStrip e) = false)
    (h4 : nextWeekGuard (pyLowerStrip e) = false)
    (h5 : findInDays (pyLowerStrip e) = none)
    (h6 : dp e false now = .error ())
    (h7 : dp e true now = .ok parsed)
    (h8 : 36500 < (diffDays parsed now).natAbs) :
    parse_relative_date dp e now = .error .unparseable := by
  unfold parse_relative_date
  rw [hne]
  simp [hcomp, h1, h2, h3, h4, h5, h6, h7, h8]

/-- Claim C1, witness for the amended theorem at a concrete input. -/
theorem c1_fuzzy_bound_rejects_witness :
    parse_relative_date dpFar "blorp".toList ⟨0, 0, 0, 0, 0⟩ = .error .unparseable :=
  c1_fuzzy_bound_rejects dpFar "blorp".toList ⟨0, 0, 0, 0, 0⟩
    ⟨999999, 0, 0, 0, 0⟩ (by decide) (by decide) (by decide) (by decide) (by decide)
    (by decide) (by decide) (by decide) (by decide) (by decide)

/-- Claim C2, counterexample: the source reads its anchor internally via
`datetime.now()` (line 47) instead of taking it from the caller, so the
result of resolving a fixed expression varies with the ambient clock: the
same call observed under two different internal clock readings returns two
different timestamps.  The anchor argument of the embedding is exactly that
internal reading. -/
theorem c2_counterexample :
    parse_relative_date dateutil_model "today".toList ⟨0, 0, 0, 0, 0⟩ ≠
      parse_relative_date dateutil_model "today".toList ⟨1, 0, 0, 0, 0⟩ := by
  decide

/-- Claim C2 (amended): the resolver is deterministic in the pair
(expression, internal clock reading): two calls that observe the same
expression and the same internal `datetime.now()` value return the same
result.  The anchor is not caller-supplied. -/
theorem c2_deterministic (dp : DParse) (e : List Char) (t₁ t₂ : PyDateTime)
    (h : t₁ = t₂) :
    parse_relative_date dp e t₁ = parse_relative_date dp e t₂ := by
  rw [h]

/-- Claim C2, witness for the amended determinism theorem. -/
theorem c2_deterministic_witness :
    parse_relative_date dateutil_model "today".toList ⟨3, 4, 5, 6, 7⟩ =
      parse_relative_date dateutil_model "today".toList ⟨3, 4, 5, 6, 7⟩ :=
  c2_deterministic dateutil_model "today".toList ⟨3, 4, 5, 6, 7⟩ ⟨3, 4, 5, 6, 7⟩ rfl

/-- Claim C4: the two `delete_task` variants disagree on ordinal semantics.
On a two-task store (id 1 created first, id 2 created second), with
`task_number = 1`, the `agent.py` variant deletes the task at position 1 of
the creation-descending listing (id 2) while the `agent_tools.py` variant
deletes the task whose stored id is 1; the outcomes differ, so the variants
are not behaviorally equivalent. -/
theorem c4_delete_variants_disagree :
    tool_delete_task_agent sqNone sampleStore none none (some 1) =
      ([sampleRec1], .deleted 2 "beta".toList) ∧
    tool_delete_task_tools sqNone sampleStore none none none (some 1) =
      ([sampleRec2], .deleted 1 "alpha".toList) ∧
    (DeleteOutcome.deleted 2 "beta".toList ≠ DeleteOutcome.deleted 1 "alpha".toList) := by
  decide

/-- Claim C6: any expression whose lower-cased, trimmed form contains one of
the fixed complaint phrases is rejected as not-a-date-statement, for every
anchor. -/
theorem c6_complaint_rejected (dp : DParse) (e : List Char) (now : PyDateTime)
    (p : List Char) (hp : p ∈ claimComplaintPhrases)
    (hc : containsSub (pyLowerStrip e) p = true) :
    parse_relative_date dp e now = .error .notADateStatement := by
  have hne : e.isEmpty = false := by
    cases e with
    | nil => exfalso; fin_cases hp <;> exact absurd hc (by decide)
    | cons a t => rfl
  have hmem : p ∈ nonDatePhrases := by fin_cases hp <;> decide
  have hcomp : isComplaint (pyLowerStrip e) = true := by
    unfold isComplaint
    exact List.any_eq_true.mpr ⟨p, hmem, hc⟩
  unfold parse_relative_date
  rw [hne]
  simp [hcomp]

/-- Claim C6, witness: `"time is wrong"` is rejected. -/
theorem c6_complaint_rejected_witness :
    parse_relative_date dateutil_model "time is wrong".toList ⟨5, 9, 30, 0, 0⟩ =
      .error .notADateStatement :=
  c6_complaint_rejected dateutil_model "time is wrong".toList ⟨5, 9, 30, 0, 0⟩
    "time is".toList (by decide) (by decide)

/-! Helper lemmas for the relative-offset pattern. -/

/-- Lower-casing fixes a string of digits. -/
theorem map_pyLowerChar_digits (ds : List Char) (h : ∀ c ∈ ds, isDigitChar c = true) :
    ds.map pyLowerChar = ds := by
  induction ds with
  | nil => rfl
  | cons c t ih =>
      rw [List.map_cons, pyLowerChar_digit (h c (List.mem_cons_self _ _)),
        ih (fun x hx => h x (List.mem_cons_of_mem _ hx))]

/-- Stripping is the identity when neither end is whitespace. -/
theorem pyStrip_no_space {e : List Char} (h1 : e.dropWhile isPySpace = e)
    (h2 : e.reverse.dropWhile isPySpace = e.reverse) : pyStrip e = e := by
  unfold pyStrip
  rw [h1, h2, List.reverse_reverse]

/-- Normalization is the identity on an `in N days` expression. -/
theorem inDays_lower_strip (ds : List Char) (hds : ∀ c ∈ ds, isDigitChar c = true) :
    pyLowerStrip ("in ".toList ++ ds ++ " days".toList) =
      "in ".toList ++ ds ++ " days".toList := by
  have hlow : pyLower ("in ".toList ++ ds ++ " days".toList) =
      "in ".toList ++ ds ++ " days".toList := by
    unfold pyLower
    rw [List.map_append, List.map_append, map_pyLowerChar_digits ds hds]
    rfl
  unfold pyLowerStrip
  rw [hlow]
  apply pyStrip_no_space
  · exact List.dropWhile_cons_of_neg (by decide)
  · have hrev : ("in ".toList ++ ds ++ " days".toList).reverse =
        's' :: 'y' :: 'a' :: 'd' :: ' ' :: (ds.reverse ++ [' ', 'n', 'i']) := by
      rw [List.reverse_append, List.reverse_append]
      rfl
    rw [hrev]
    exact List.dropWhile_cons_of_neg (by decide)

/-- The offset regex matches at the head of an `in N days` expression and
captures the digits. -/
theorem matchInDays_shape (c : Char) (ds' : List Char)
    (hds : ∀ x ∈ c :: ds', isDigitChar x = true) :
    matchInDays ('i' :: 'n' :: ' ' :: ((c :: ds') ++ (' ' :: 'd' :: 'a' :: 'y' :: 's' ::[]))) =
      some (digitsVal (c :: ds')) := by
  have hc := hds c (List.mem_cons_self _ _)
  have hcs : isPySpace c = false := isPySpace_digit hc
  unfold matchInDays
  simp only [List.cons_append]
  rw [List.takeWhile_cons_of_pos (by decide), List.takeWhile_cons_of_neg (by simp [hcs]),
    List.dropWhile_cons_of_pos (by decide), List.dropWhile_cons_of_neg (by simp [hcs])]
  have hds' : ∀ x ∈ ds', isDigitChar x = true := fun x hx => hds x (List.mem_cons_of_mem _ hx)
  rw [List.takeWhile_cons_of_pos hc, List.takeWhile_append_of_pos hds',
    List.dropWhile_cons_of_pos hc, List.dropWhile_append_of_pos hds']
  have ht : List.takeWhile isDigitChar [' ', 'd', 'a', 'y', 's'] = [] := by decide
  have hd : List.dropWhile isDigitChar [' ', 'd', 'a', 'y', 's'] = [' ', 'd', 'a', 'y', 's'] := by
    decide
  rw [ht, hd, List.append_nil]
  rfl

/-- An `in N days` expression contains no complaint phrase: every phrase of
the fixed list contains the letter `t`, which cannot occur in the
expression. -/
theorem inDays_not_complaint (ds : List Char) (hds : ∀ c ∈ ds, isDigitChar c = true) :
    isComplaint ("in ".toList ++ ds ++ " days".toList) = false := by
  rw [isComplaint]
  rw [List.any_eq_false]
  intro p hp hpc
  have htp : 't' ∈ p := by fin_cases hp <;> decide
  have hte := containsSub_subset hpc 't' htp
  simp only [List.mem_append] at hte
  rcases hte with (hte | hte) | hte
  · exact absurd hte (by decide)
  · exact t_not_digit hds hte
  · exact absurd hte (by decide)

/-- The leftmost-match search finds the offset pattern at position zero. -/
theorem findInDays_inDays (c : Char) (ds' : List Char)
    (hds : ∀ x ∈ c :: ds', isDigitChar x = true) :
    findInDays ("in ".toList ++ (c :: ds') ++ " days".toList) = some (digitsVal (c :: ds')) := by
  show findInDays ('i' :: 'n' :: ' ' :: ((c :: ds') ++ (' ' :: 'd' :: 'a' :: 'y' :: 's' ::[]))) = _
  rw [findInDays, matchInDays_shape c ds' hds]

/-- Claim C5: simple relative expressions resolve to the start of the right
day for every anchor and every parser oracle: `today` to the anchor day with
the time zeroed, `tomorrow` to the following day, and `in N days` (for every
non-negative `N`, given through its decimal digit string) to the anchor plus
`N` days, all at 00:00:00. -/
theorem c5_simple_relative_start_of_day :
    (∀ (dp : DParse) (now : PyDateTime),
      parse_relative_date dp "today".toList now = .ok now.startOfDay) ∧
    (∀ (dp : DParse) (now : PyDateTime),
      parse_relative_date dp "tomorrow".toList now = .ok ((now.addDays 1).startOfDay)) ∧
    (∀ (dp : DParse) (now : PyDateTime) (ds : List Char) (N : Nat), ds ≠ [] →
      (∀ c ∈ ds, isDigitChar c = true) → digitsVal ds = N →
      parse_relative_date dp ("in ".toList ++ ds ++ " days".toList) now =
        .ok ((now.addDays (Int.ofNat N)).startOfDay)) := by
  refine ⟨fun dp now => rfl, fun dp now => rfl, ?_⟩
  intro dp now ds N hne hds hval
  obtain ⟨c, ds', rfl⟩ : ∃ c ds', ds = c :: ds' := by
    cases ds with
    | nil => exact absurd rfl hne
    | cons c t => exact ⟨c, t, rfl⟩
  have hl : pyLowerStrip ('i' :: 'n' :: ' ' :: c :: (ds' ++ [' ', 'd', 'a', 'y', 's'])) =
      'i' :: 'n' :: ' ' :: c :: (ds' ++ [' ', 'd', 'a', 'y', 's']) :=
    inDays_lower_strip (c :: ds') hds
  have hcm : isComplaint ('i' :: 'n' :: ' ' :: c :: (ds' ++ [' ', 'd', 'a', 'y', 's'])) = false :=
    inDays_not_complaint (c :: ds') hds
  have hf : findInDays ('i' :: 'n' :: ' ' :: c :: (ds' ++ [' ', 'd', 'a', 'y', 's'])) =
      some (digitsVal (c :: ds')) :=
    findInDays_inDays c ds' hds
  have h1 : todayGuard ('i' :: 'n' :: ' ' :: c :: (ds' ++ [' ', 'd', 'a', 'y', 's'])) = false := rfl
  have h2 : tomorrowGuard ('i' :: 'n' :: ' ' :: c :: (ds' ++ [' ', 'd', 'a', 'y', 's'])) = false := rfl
  have h3 : yesterdayGuard ('i' :: 'n' :: ' ' :: c :: (ds' ++ [' ', 'd', 'a', 'y', 's'])) = false := rfl
  have h4 : nextWeekGuard ('i' :: 'n' :: ' ' :: c :: (ds' ++ [' ', 'd', 'a', 'y', 's'])) = false := rfl
  have hemp : ("in ".toList ++ (c :: ds') ++ " days".toList).isEmpty = false := rfl
  unfold parse_relative_date
  rw [hemp]
  simp [hl, hcm, h1, h2, h3, h4, hf, hval]

/-- Claim C5, witness: `in 2 days` at a concrete anchor. -/
theorem c5_simple_relative_witness :
    parse_relative_date dateutil_model "in 2 days".toList ⟨0, 0, 0, 0, 0⟩ =
      .ok ((PyDateTime.addDays (Int.ofNat 2) ⟨0, 0, 0, 0, 0⟩).startOfDay) :=
  c5_simple_relative_start_of_day.2.2 dateutil_model ⟨0, 0, 0, 0, 0⟩ ['2'] 2
    (by decide) (by decide) (by decide)

/-! Helper lemmas for the shortcut branches. -/

/-- A string accepted by the `today` guard starts with `tod`. -/
theorem todayGuard_shape {l : List Char} (h : todayGuard l = true) :
    ∃ xs, l = 't' :: 'o' :: 'd' :: xs := by
  rw [todayGuard, Bool.or_eq_true] at h
  rcases h with h | h
  · rw [beq_iff_eq] at h
    exact ⟨_, h⟩
  · rw [List.isPrefixOf_iff_prefix] at h
    obtain ⟨t, ht⟩ := h
    exact ⟨_, ht.symm⟩

/-- A string accepted by the `tomorrow` guard starts with `tom`. -/
theorem tomorrowGuard_shape {l : List Char} (h : tomorrowGuard l = true) :
    ∃ xs, l = 't' :: 'o' :: 'm' :: xs := by
  rw [tomorrowGuard, Bool.or_eq_true] at h
  rcases h with h | h
  · rw [beq_iff_eq] at h
    exact ⟨_, h⟩
  · rw [List.isPrefixOf_iff_prefix] at h
    obtain ⟨t, ht⟩ := h
    exact ⟨_, ht.symm⟩

/-- A string accepted by the `yesterday` guard starts with `y`. -/
theorem yesterdayGuard_shape {l : List Char} (h : yesterdayGuard l = true) :
    ∃ xs, l = 'y' :: xs := by
  rw [yesterdayGuard, Bool.or_eq_true] at h
  rcases h with h | h
  · rw [beq_iff_eq] at h
    exact ⟨_, h⟩
  · rw [List.isPrefixOf_iff_prefix] at h
    obtain ⟨t, ht⟩ := h
    exact ⟨_, ht.symm⟩

/-- A string accepted by the `next week` guard starts with `n`. -/
theorem nextWeekGuard_shape {l : List Char} (h : nextWeekGuard l = true) :
    ∃ xs, l = 'n' :: xs := by
  rw [nextWeekGuard, List.isPrefixOf_iff_prefix] at h
  obtain ⟨t, ht⟩ := h
  exact ⟨_, ht.symm⟩

/-- The `tomorrow` branch is unreachable for `today` expressions and
conversely: the guards are mutually exclusive. -/
theorem todayGuard_of_tomorrow {l : List Char} (h : tomorrowGuard l = true) :
    todayGuard l = false := by
  obtain ⟨xs, rfl⟩ := tomorrowGuard_shape h
  rfl

/-- A `yesterday` expression is rejected by the two earlier guards. -/
theorem earlier_of_yesterday {l : List Char} (h : yesterdayGuard l = true) :
    todayGuard l = false ∧ tomorrowGuard l = false := by
  obtain ⟨xs, rfl⟩ := yesterdayGuard_shape h
  exact ⟨rfl, rfl⟩

/-- A `next week` expression is rejected by the three earlier guards. -/
theorem earlier_of_nextWeek {l : List Char} (h : nextWeekGuard l = true) :
    todayGuard l = false ∧ tomorrowGuard l = false ∧ yesterdayGuard l = false := by
  obtain ⟨xs, rfl⟩ := nextWeekGuard_shape h
  exact ⟨rfl, rfl, rfl⟩

/-- Claim C3, counterexample: `"next week at 3pm"` has `has_time_spec` true
and its remaining text carries the time-of-day 15:00 (as the parser oracle
shows), yet resolution returns the following Monday at 00:00:00 — the
`next week` branch never applies the time-of-day, contradicting the claim
for that shortcut. -/
theorem c3_counterexample :
    hasTimeSpec (pyLowerStrip "next week at 3pm".toList) = true ∧
    dateutil_model "next week at 3pm".toList true ⟨8, 9, 30, 0, 0⟩ = .ok ⟨8, 15, 0, 0, 0⟩ ∧
    parse_relative_date dateutil_model "next week at 3pm".toList ⟨1, 9, 30, 0, 0⟩ =
      .ok ⟨8, 0, 0, 0, 0⟩ ∧
    (.ok ⟨8, 0, 0, 0, 0⟩ : Except DateError PyDateTime) ≠ .ok ⟨8, 15, 0, 0, 0⟩ := by
  decide

/-- Claim C3 (amended): for expressions starting with `today`, `tomorrow` or
`yesterday`, when `has_time_spec` holds the result is the fuzzy parse of the
full text (defaulted to the shortcut anchor) with its date forced to the
shortcut date, and otherwise the shortcut date at 00:00:00; expressions
starting with `next week` always resolve to the following Monday at
00:00:00, regardless of `has_time_spec`. -/
theorem c3_shortcut_branches :
    (∀ (dp : DParse) (e : List Char) (now p : PyDateTime), e ≠ [] →
      isComplaint (pyLowerStrip e) = false → todayGuard (pyLowerStrip e) = true →
      hasTimeSpec (pyLowerStrip e) = true → dp e true now = .ok p →
      parse_relative_date dp e now = .ok (p.withDateOf now)) ∧
    (∀ (dp : DParse) (e : List Char) (now : PyDateTime), e ≠ [] →
      isComplaint (pyLowerStrip e) = false → todayGuard (pyLowerStrip e) = true →
      hasTimeSpec (pyLowerStrip e) = false →
      parse_relative_date dp e now = .ok now.startOfDay) ∧
    (∀ (dp : DParse) (e : List Char) (now p : PyDateTime), e ≠ [] →
      isComplaint (pyLowerStrip e) = false → tomorrowGuard (pyLowerStrip e) = true →
      hasTimeSpec (pyLowerStrip e) = true → dp e true (now.addDays 1) = .ok p →
      parse_relative_date dp e now = .ok (p.withDateOf (now.addDays 1))) ∧
    (∀ (dp : DParse) (e : List Char) (now : PyDateTime), e ≠ [] →
      isComplaint (pyLowerStrip e) = false → tomorrowGuard (pyLowerStrip e) = true →
      hasTimeSpec (pyLowerStrip e) = false →
      parse_relative_date dp e now = .ok ((now.addDays 1).startOfDay)) ∧
    (∀ (dp : DParse) (e : List Char) (now p : PyDateTime), e ≠ [] →
      isComplaint (pyLowerStrip e) = false → yesterdayGuard (pyLowerStrip e) = true →
      hasTimeSpec (pyLowerStrip e) = true → dp e true (now.addDays (-1)) = .ok p →
      parse_relative_date dp e now = .ok (p.withDateOf (now.addDays (-1)))) ∧
    (∀ (dp : DParse) (e : List Char) (now : PyDateTime), e ≠ [] →
      isComplaint (pyLowerStrip e) = false → yesterdayGuard (pyLowerStrip e) = true →
      hasTimeSpec (pyLowerStrip e) = false →
      parse_relative_date dp e now = .ok ((now.addDays (-1)).startOfDay)) ∧
    (∀ (dp : DParse) (e : List Char) (now : PyDateTime), e ≠ [] →
      isComplaint (pyLowerStrip e) = false → nextWeekGuard (pyLowerStrip e) = true →
      parse_relative_date dp e now =
        .ok ((now.addDays (if 7 - now.weekday = 0 then 7 else 7 - now.weekday)).startOfDay)) := by
  have hempOf : ∀ e : List Char, e ≠ [] → e.isEmpty = false := by
    intro e hne
    cases e with
    | nil => exact absurd rfl hne
    | cons a t => rfl
  refine ⟨?_, ?_, ?_, ?_, ?_, ?_, ?_⟩
  · intro dp e now p hne hcomp hg hts hdp
    unfold parse_relative_date
    rw [hempOf e hne]
    simp [hcomp, hg, hts, applyTimeAtop, hdp]
  · intro dp e now hne hcomp hg hts
    unfold parse_relative_date
    rw [hempOf e hne]
    simp [hcomp, hg, hts]
  · intro dp e now p hne hcomp hg hts hdp
    unfold parse_relative_date
    rw [hempOf e hne]
    simp [hcomp, todayGuard_of_tomorrow hg, hg, hts, applyTimeAtop, hdp]
  · intro dp e now hne hcomp hg hts
    unfold parse_relative_date
    rw [hempOf e hne]
    simp [hcomp, todayGuard_of_tomorrow hg, hg, hts]
  · intro dp e now p hne hcomp hg hts hdp
    obtain ⟨h1, h2⟩ := earlier_of_yesterday hg
    unfold parse_relative_date
    rw [hempOf e hne]
    simp [hcomp, h1, h2, hg, hts, applyTimeAtop, hdp]
  · intro dp e now hne hcomp hg hts
    obtain ⟨h1, h2⟩ := earlier_of_yesterday hg
    unfold parse_relative_date
    rw [hempOf e hne]
    simp [hcomp, h1, h2, hg, hts]
  · intro dp e now hne hcomp hg
    obtain ⟨h1, h2, h3⟩ := earlier_of_nextWeek hg
    unfold parse_relative_date
    rw [hempOf e hne]
    simp [hcomp, h1, h2, h3, hg]

/-- Claim C3, witness for the amended theorem: `"tomorrow at 3pm"` resolves
to tomorrow at 15:00:00. -/
theorem c3_shortcut_branches_witness :
    parse_relative_date dateutil_model "tomorrow at 3pm".toList ⟨0, 9, 30, 0, 0⟩ =
      .ok ⟨1, 15, 0, 0, 0⟩ :=
  c3_shortcut_branches.2.2.1 dateutil_model "tomorrow at 3pm".toList ⟨0, 9, 30, 0, 0⟩
    ⟨1, 15, 0, 0, 0⟩ (by decide) (by decide) (by decide) (by decide) (by decide)

/-- Claim C7: when resolution is given no id and only a title query whose
store search returns a nonempty list, the resolver returns exactly the id of
the first search result (a single id, and — the embedding being a pure
function of the store state and inputs — the same one on every call with
unchanged state). -/
theorem c7_title_first_match (sq : SemQuery) (st : List StoredTask)
    (sess : Option (List Char)) (q : List Char) (r : Task) (rest : List Task)
    (hs : search_tasks sq st q sess = r :: rest) (hr : r.id ≠ 0) :
    update_find_task_id sq st sess none (some q) = .found r.id := by
  have hq : q ≠ [] := by
    intro h
    subst h
    rw [show search_tasks sq st [] sess = [] from rfl] at hs
    cases hs
  have hqt : strTruthy (some q) = true := by
    cases q with
    | nil => exact absurd rfl hq
    | cons a t => rfl
  unfold update_find_task_id
  simp [intTruthy, hqt, hs, hr]

/-- Claim C7, witness: on the two-task store the search (ranked by the
oracle, then sorted by creation descending) starts with the task of id 2,
and the resolver returns exactly that id. -/
theorem c7_title_first_match_witness :
    update_find_task_id sqAll sampleStore none none (some "beta".toList) = .found 2 :=
  c7_title_first_match sqAll sampleStore none "beta".toList
    ⟨2, "beta".toList, none, .medium, none, ⟨11, 0, 0, 0, 0⟩⟩
    [⟨1, "alpha".toList, none, .medium, none, ⟨10, 0, 0, 0, 0⟩⟩]
    (by decide) (by decide)

/-- Claim C8, counterexample: the explicit id 0 is absent from every store,
yet resolution with `task_id = 0` fails with the needs-clarification error,
not with not-found — Python truthiness treats the id 0 as absent. -/
theorem c8_counterexample :
    tool_delete_task_tools sqNone [] none (some 0) none none = ([], .needRef) ∧
    DeleteOutcome.needRef ≠ DeleteOutcome.idNotFound 0 := by
  decide

/-- Claim C8 (amended): for every nonzero explicit id absent from the store
(as reported by `get_task`), both the delete and the update tool verify
existence via the store and fail with not-found for that id, regardless of
the other arguments; the store is left unchanged.  (An explicit id of 0 is
treated as absent by Python truthiness and asks for clarification instead.) -/
theorem c8_absent_id_not_found (sq : SemQuery) (dp : DParse) (st : List StoredTask)
    (sess : Option (List Char)) (id : Int) (hid : id ≠ 0)
    (hget : get_task st id sess = none)
    (task_title new_title priority scheduled_time category : Option (List Char))
    (task_number : Option Int) (now : PyDateTime) :
    tool_delete_task_tools sq st sess (some id) task_title task_number =
      (st, .idNotFound id) ∧
    tool_update_task sq dp st sess (some id) task_title new_title priority scheduled_time
      category now = (st, .idNotFound id) := by
  have hidt : intTruthy (some id) = true := by simp [intTruthy, hid]
  constructor
  · unfold tool_delete_task_tools
    simp [hidt, hget]
  · unfold tool_update_task update_find_task_id
    simp [hidt, hget]

/-- Claim C8, witness: id 5 on the empty store. -/
theorem c8_absent_id_not_found_witness :
    tool_delete_task_tools sqNone [] none (some 5) none none = ([], .idNotFound 5) ∧
    tool_update_task sqNone dateutil_model [] none (some 5) none none none none none
      ⟨0, 0, 0, 0, 0⟩ = ([], .idNotFound 5) :=
  c8_absent_id_not_found sqNone dateutil_model [] none 5 (by decide) (by decide)
    none none none none none none ⟨0, 0, 0, 0, 0⟩

/-! Helper lemmas for the store update. -/

/-- The stored priority value parses back to the same `Priority`. -/
theorem parsePriority_value (p : Priority) : parsePriority (priorityValue p) = some p := by
  cases p <;> rfl

/-- The stored category value parses back to the same optional `Category`. -/
theorem parseCategory_map (oc : Option Category) : parseCategory (oc.map categoryValue) = oc := by
  cases oc with
  | none => rfl
  | some cc => cases cc <;> rfl

/-- After deleting every record with the id and appending the fresh record,
lookup by the id finds exactly the fresh record. -/
theorem find?_filter_ne_append (st : List StoredTask) (id : Int) (newRec : StoredTask)
    (hid : newRec.id = id) :
    (st.filter (fun r => !(r.id == id)) ++ [newRec]).find? (fun r => r.id == id) =
      some newRec := by
  rw [List.find?_append]
  have hl : (st.filter (fun r => !(r.id == id))).find? (fun r => r.id == id) = none := by
    rw [List.find?_eq_none]
    intro x hx
    rw [List.mem_filter] at hx
    simpa using hx.2
  rw [hl]
  have hr : List.find? (fun r => r.id == id) [newRec] = some newRec :=
    List.find?_cons_of_pos _ (by simp [hid])
  rw [hr]
  rfl

/-- Claim C9: updating an existing task through the delete-and-reinsert
implementation returns a task with the same id and `created_at` as before,
and every field the update leaves as `None` (title, priority, category,
scheduled time) keeps its pre-update value. -/
theorem c9_update_preserves_fields (st : List StoredTask) (sess : Option (List Char))
    (id : Int) (upd : TaskUpdate) (old : Task) (hget : get_task st id sess = some old) :
    ∃ t : Task, (db_update_task st id upd sess).2 = some t ∧ t.id = old.id ∧
      t.created_at = old.created_at ∧
      (upd.title = none → t.title = old.title) ∧
      (upd.priority = none → t.priority = old.priority) ∧
      (upd.category = none → t.category = old.category) ∧
      (upd.scheduled_time = none → t.scheduled_time = old.scheduled_time) := by
  have hg2 := hget
  unfold get_task at hg2
  cases hfind : st.find? (fun r => r.id == id) with
  | none => rw [hfind] at hg2; cases hg2
  | some r =>
      rw [hfind] at hg2
      dsimp only at hg2
      by_cases hrej : sessionRejected sess r = true
      · rw [if_pos hrej] at hg2; cases hg2
      · rw [if_neg hrej] at hg2
        have hrejF : sessionRejected sess r = false := by
          revert hrej
          cases sessionRejected sess r <;> simp
        unfold metadataToTask at hg2
        cases hpr : parsePriority r.priority with
        | none => rw [hpr] at hg2; cases hg2
        | some p0 =>
            rw [hpr] at hg2
            have hrid : r.id = id := by simpa using List.find?_some hfind
            injection hg2 with hold
            subst hold
            unfold db_update_task
            rw [hget]
            dsimp only
            rw [hfind]
            unfold get_task
            rw [find?_filter_ne_append st id _ rfl]
            dsimp only
            split
            next h =>
              split
              next h2 => exact absurd (by simpa [sessionRejected] using h2) hrej
              next h2 =>
                unfold metadataToTask
                rw [parsePriority_value]
                dsimp only
                rw [parseCategory_map]
                refine ⟨_, rfl, hrid.symm, rfl, ?_, ?_, ?_, ?_⟩
                · intro h0
                  rw [h0]
                  rfl
                · intro h0
                  rw [h0]
                  rfl
                · intro h0
                  rw [h0]
                · intro h0
                  rw [h0]
            next h =>
              split
              next h2 => simp [sessionRejected, strTruthy] at h2
              next h2 =>
                unfold metadataToTask
                rw [parsePriority_value]
                dsimp only
                rw [parseCategory_map]
                refine ⟨_, rfl, hrid.symm, rfl, ?_, ?_, ?_, ?_⟩
                · intro h0
                  rw [h0]
                  rfl
                · intro h0
                  rw [h0]
                  rfl
                · intro h0
                  rw [h0]
                · intro h0
                  rw [h0]

/-- Claim C9, witness: an all-`None` update of task 1 on the two-task
store. -/
theorem c9_update_preserves_fields_witness :
    ∃ t : Task, (db_update_task sampleStore 1 ⟨none, none, none, none⟩ none).2 = some t ∧
      t.id = 1 ∧ t.created_at = ⟨10, 0, 0, 0, 0⟩ ∧
      ((none : Option (List Char)) = none → t.title = "alpha".toList) ∧
      ((none : Option Priority) = none → t.priority = .medium) ∧
      ((none : Option Category) = none → t.category = none) ∧
      ((none : Option PyDateTime) = none → t.scheduled_time = none) :=
  c9_update_preserves_fields sampleStore none 1 ⟨none, none, none, none⟩
    ⟨1, "alpha".toList, none, .medium, none, ⟨10, 0, 0, 0, 0⟩⟩ (by decide)

/-- A successful creation in the store: the record is appended with the next
id and the task is read back unchanged (requires the next id to be fresh). -/
theorem db_create_task_eq (db : DB) (task : TaskCreate) (sess : Option (List Char))
    (cnow : PyDateTime) (hfresh : ∀ r ∈ db.recs, r.id ≠ db.next_id) :
    db_create_task db task sess cnow =
      ({ recs := db.recs ++
          [{ id := db.next_id, title := task.title, priority := priorityValue task.priority,
             category := task.category.map categoryValue, scheduled_time := task.scheduled_time,
             created_at := cnow,
             session_id := if strTruthy sess = true then sess else none }],
         next_id := db.next_id + 1 },
       some { id := db.next_id, title := task.title, scheduled_time := task.scheduled_time,
              priority := task.priority, category := task.category,
              created_at := cnow }) := by
  have hfl : (db.recs).find? (fun r => r.id == db.next_id) = none :=
    List.find?_eq_none.mpr (fun x hx => by simpa using hfresh x hx)
  unfold db_create_task
  dsimp only
  unfold get_task
  rw [List.find?_append, hfl]
  by_cases hs : strTruthy sess = true <;>
    simp [hs, sessionRejected, metadataToTask, parsePriority_value, parseCategory_map]

/-- Claim C10: with a valid title and otherwise valid arguments, a priority
string outside the map (after lower-casing) never aborts creation: the task
is created and its stored priority silently defaults to `medium`; an
unrecognized category, in contrast, aborts creation with an error. -/
theorem c10_unrecognized_priority_defaults :
    (∀ (dp : DParse) (db : DB) (sess : Option (List Char)) (title priority : List Char)
      (scheduled_time category : Option (List Char)) (now created_now : PyDateTime),
      (pyStrip title).isEmpty = false →
      priorityLookup priority = none →
      (category = none ∨ ∃ c ce, category = some c ∧ categoryLookup c = some ce) →
      (scheduled_time = none ∨
        ∃ s d, scheduled_time = some s ∧ parse_relative_date dp s now = .ok d) →
      (∀ r ∈ db.recs, r.id ≠ db.next_id) →
      ∃ db' rec0,
        tool_create_task dp db sess title priority scheduled_time category now created_now =
          (db', .created db.next_id (pyStrip title)) ∧
        db'.recs = db.recs ++ [rec0] ∧ rec0.priority = "medium".toList) ∧
    (∀ (dp : DParse) (db : DB) (sess : Option (List Char)) (title priority : List Char)
      (scheduled_time category : Option (List Char)) (now created_now : PyDateTime),
      (pyStrip title).isEmpty = false →
      strTruthy category = true →
      categoryLookup (category.getD []) = none →
      tool_create_task dp db sess title priority scheduled_time category now created_now =
        (db, .invalidCategory (category.getD []))) := by
  constructor
  · intro dp db sess title priority scheduled_time category now created_now htitle hpr hcat
      hsched hfresh
    unfold tool_create_task
    rw [htitle]
    have hn : strTruthy (none : Option (List Char)) = false := rfl
    rcases hcat with rfl | ⟨c, ce, rfl, hce⟩ <;>
      rcases hsched with rfl | ⟨sch, d, rfl, hd⟩
    · simp only [hn, Bool.false_eq_true, if_false]
      rw [db_create_task_eq db _ sess created_now hfresh]
      exact ⟨_, _, rfl, rfl, by rw [hpr]; rfl⟩
    · have hscht : strTruthy (some sch) = true := by
        cases sch with
        | nil =>
            rw [show parse_relative_date dp [] now = .error .emptyString from rfl] at hd
            cases hd
        | cons a t => rfl
      simp only [hn, hscht, if_true, Option.getD_some, hd, Bool.false_eq_true, if_false]
      rw [db_create_task_eq db _ sess created_now hfresh]
      exact ⟨_, _, rfl, rfl, by rw [hpr]; rfl⟩
    · have hct : strTruthy (some c) = true := by
        cases c with
        | nil => rw [show categoryLookup [] = none from rfl] at hce; cases hce
        | cons a t => rfl
      simp only [hn, hct, if_true, Option.getD_some, hce, Bool.false_eq_true, if_false]
      rw [db_create_task_eq db _ sess created_now hfresh]
      exact ⟨_, _, rfl, rfl, by rw [hpr]; rfl⟩
    · have hct : strTruthy (some c) = true := by
        cases c with
        | nil => rw [show categoryLookup [] = none from rfl] at hce; cases hce
        | cons a t => rfl
      have hscht : strTruthy (some sch) = true := by
        cases sch with
        | nil =>
            rw [show parse_relative_date dp [] now = .error .emptyString from rfl] at hd
            cases hd
        | cons a t => rfl
      simp only [hn, hct, if_true, Option.getD_some, hce, hscht, hd, Bool.false_eq_true,
        if_false]
      rw [db_create_task_eq db _ sess created_now hfresh]
      exact ⟨_, _, rfl, rfl, by rw [hpr]; rfl⟩
  · intro dp db sess title priority scheduled_time category now created_now htitle hc hbad
    unfold tool_create_task
    simp [htitle, hc, hbad]

/-- Claim C10, witness: creating with the unrecognized priority `urgent`
succeeds and stores `medium`. -/
theorem c10_unrecognized_priority_defaults_witness :
    ∃ db' rec0,
      tool_create_task dateutil_model ⟨[], 1⟩ none "buy milk".toList "urgent".toList none none
        ⟨0, 0, 0, 0, 0⟩ ⟨0, 1, 2, 3, 4⟩ =
        (db', .created 1 (pyStrip "buy milk".toList)) ∧
      db'.recs = [] ++ [rec0] ∧ rec0.priority = "medium".toList :=
  c10_unrecognized_priority_defaults.1 dateutil_model ⟨[], 1⟩ none "buy milk".toList
    "urgent".toList none none ⟨0, 0, 0, 0, 0⟩ ⟨0, 1, 2, 3, 4⟩ (by decide) (by decide)
    (Or.inl rfl) (Or.inl rfl) (by simp)

end VTodo
